import Mathlib

/-!
Shallow embedding of `src/mls_app.py` (MLS-Analyzer): a tracker for which
data fields are filled or empty across a batch of real-estate listings.

Modelling conventions:
* The SQLAlchemy tables `Listing`, `Field`, `Observation` become structures;
  the database becomes a `Store` holding the three row lists in insertion
  order together with the next auto-increment primary key for each table.
* SQL primary-key joins (`o.listing_id = l.id`, `o.field_id = f.id`) are
  resolved with `List.find?` on the row lists; primary keys are unique in
  the database, and the well-formedness predicates below record that.
* `datetime` columns (`created_at`, `checked_at`) carry no information any
  verified property depends on; they are omitted.  Orderings that the source
  expresses as `ORDER BY created_at` are modelled as insertion order (the
  wall clock is monotone across the sequential requests that create rows).
* Python `str.strip()` is modelled by `pyStrip`, Python `int(...)` on a
  string by `pyInt?` (`none` models the raised `ValueError`), and Python
  truthiness of an integer by `pyBool`.
-/

namespace MLS

/-- Row of the `listing` table: a unit under review, grouped by batch. -/
structure Listing where
  id : Nat
  batch : String
  listing_id_text : String
deriving Repr, DecidableEq

/-- Row of the `field` table: a canonical name for a checked attribute. -/
structure Field where
  id : Nat
  canonical : String
deriving Repr, DecidableEq

/-- Row of the `observation` table: one filled/empty fact for a
(listing, field) pair. -/
structure Observation where
  id : Nat
  listing_id : Nat
  field_id : Nat
  filled : Bool
  raw_text : String
  analyst : String
deriving Repr, DecidableEq

/-- The database state: the three tables plus auto-increment counters. -/
structure Store where
  listings : List Listing
  fields : List Field
  observations : List Observation
  nextListingId : Nat
  nextFieldId : Nat
  nextObsId : Nat
deriving Repr, DecidableEq

/-- Fresh database, as produced by `create_tables()`. -/
def emptyStore : Store :=
  { listings := [], fields := [], observations := [],
    nextListingId := 1, nextFieldId := 1, nextObsId := 1 }

/-- Characters removed from both ends of a string by Python `str.strip()`. -/
def trimChars (cs : List Char) : List Char :=
  ((cs.dropWhile Char.isWhitespace).reverse.dropWhile Char.isWhitespace).reverse

/-- Model of Python `str.strip()` with no argument. -/
def pyStrip (s : String) : String := String.mk (trimChars s.data)

/-- Digits of a decimal literal folded to a number. -/
def digitsToNat (cs : List Char) : Nat :=
  cs.foldl (fun n c => 10 * n + (c.toNat - ('0').toNat)) 0

/-- Model of Python `int(s)` on a string: optional surrounding whitespace,
optional sign, then a nonempty run of decimal digits; `none` models the
`ValueError` that `int` raises on anything else (underscore digit
separators are not modelled). -/
def pyInt? (s : String) : Option Int :=
  match trimChars s.data with
  | [] => none
  | '+' :: rest =>
      if rest ≠ [] ∧ rest.all Char.isDigit then some (digitsToNat rest) else none
  | '-' :: rest =>
      if rest ≠ [] ∧ rest.all Char.isDigit then some (-(digitsToNat rest : Int)) else none
  | cs =>
      if cs.all Char.isDigit then some (digitsToNat cs) else none

/-- Model of Python `bool(i)` on an integer. -/
def pyBool (i : Int) : Bool := i != 0

/-- Inline find-or-create on the `field` table by exact canonical match, as
performed by `add_listing` (lines 88-91) and `import_obs` (lines 179-182);
the argument is assumed already stripped and non-blank by the caller. -/
def getOrCreateField (s : Store) (canon : String) : Field × Store :=
  match s.fields.find? (fun f => f.canonical == canon) with
  | some f => (f, s)
  | none =>
      let f : Field := { id := s.nextFieldId, canonical := canon }
      (f, { s with fields := s.fields ++ [f], nextFieldId := s.nextFieldId + 1 })

/-- Helper `find_or_create_field` (lines 47-57): strips the name, returns
`none` for a blank name, otherwise find-or-create by canonical match. -/
def find_or_create_field (s : Store) (name : String) : Option Field × Store :=
  let name := pyStrip name
  if name = "" then (none, s)
  else
    let (f, s) := getOrCreateField s name
    (some f, s)

/-- One entry of the `observations` array in the JSON body of
`POST /api/batches/<batch>/listings`; `field_text` is `none` when the key
is absent or null (`obs.get('field_text') or ''` then yields `''`). -/
structure ObsEntry where
  field_text : Option String
  filled : Bool
deriving Repr, DecidableEq

/-- JSON body of `POST /api/batches/<batch>/listings`; `none` models an
absent key, for which `data.get` substitutes the default. -/
structure AddListingReq where
  listing_id : Option String
  observations : List ObsEntry
  analyst : Option String
deriving Repr, DecidableEq

/-- HTTP outcome of the `add_listing` route: a JSON error with its status
code, or the success payload `listing_db_id` (status 200). -/
inductive ApiResult where
  | err (msg : String) (status : Nat)
  | ok (listing_db_id : Nat)
deriving Repr, DecidableEq

/-- Decides whether an observation entry's field text is blank after
stripping, which makes `add_listing` skip the entry. -/
def blankEntry (e : ObsEntry) : Bool := pyStrip (e.field_text.getD "") == ""

/-- Body of the per-entry loop of `add_listing` (lines 84-94): skip a blank
field text, find-or-create the Field, append an Observation referencing the
already-created Listing `lid`. -/
def addObsStep (lid : Nat) (analyst : String) (s : Store) (e : ObsEntry) : Store :=
  let raw := pyStrip (e.field_text.getD "")
  if raw = "" then s
  else
    let (fld, s') := getOrCreateField s raw
    { s' with
      observations := s'.observations ++
        [{ id := s'.nextObsId, listing_id := lid, field_id := fld.id,
           filled := e.filled, raw_text := raw, analyst := analyst }],
      nextObsId := s'.nextObsId + 1 }

/-- Route `add_listing` (lines 73-96): reject a blank listing id with a 400
error, otherwise create the Listing unconditionally and then process every
observation entry with `addObsStep`. -/
def add_listing (s : Store) (batch : String) (req : AddListingReq) :
    ApiResult × Store :=
  let listing_text := pyStrip (req.listing_id.getD "")
  let analyst := req.analyst.getD "unknown"
  if listing_text = "" then (.err "listing_id required" 400, s)
  else
    let lst : Listing :=
      { id := s.nextListingId, batch := batch, listing_id_text := listing_text }
    let s₁ : Store :=
      { s with listings := s.listings ++ [lst], nextListingId := s.nextListingId + 1 }
    let s₂ := req.observations.foldl (addObsStep lst.id analyst) s₁
    (.ok lst.id, s₂)

/-- Body of the per-listing loop of `bulk_mark_empty` (lines 136-141): if
the pair (listing, field) has no Observation yet in the session, append one
with `filled = false` and bump the created-count. -/
def bulkStep (fid : Nat) (canon analyst : String) (acc : Store × Nat)
    (l : Listing) : Store × Nat :=
  match acc.1.observations.find? (fun o => o.listing_id == l.id && o.field_id == fid) with
  | some _ => acc
  | none =>
      ({ acc.1 with
         observations := acc.1.observations ++
           [{ id := acc.1.nextObsId, listing_id := l.id, field_id := fid,
              filled := false, raw_text := canon, analyst := analyst }],
         nextObsId := acc.1.nextObsId + 1 }, acc.2 + 1)

/-- Route `bulk_mark_empty` (lines 130-143): 404 (`none`) when the field id
does not exist, otherwise walk every Listing of every batch and fill the
gaps; returns the updated store and the number of rows created. -/
def bulk_mark_empty (s : Store) (field_id : Nat) (analyst : String) :
    Option (Store × Nat) :=
  match s.fields.find? (fun f => f.id == field_id) with
  | none => none
  | some fld =>
      some (s.listings.foldl (bulkStep field_id fld.canonical analyst) (s, 0))

/-- Store produced by the gap-filling branch of `bulkStep`. -/
def bulkAppend (fid : Nat) (canon an : String) (t : Store) (l : Listing) : Store :=
  { t with
    observations := t.observations ++
      [{ id := t.nextObsId, listing_id := l.id, field_id := fid,
         filled := false, raw_text := canon, analyst := an }],
    nextObsId := t.nextObsId + 1 }

/-- Demonstration store shared by the bulk-mark-empty witnesses: two
listings, one field, and one observation covering only the first pair. -/
def demoBulk : Store :=
  { listings := [{ id := 1, batch := "default", listing_id_text := "L1" },
                 { id := 2, batch := "default", listing_id_text := "L2" }],
    fields := [{ id := 1, canonical := "Garage" }],
    observations := [{ id := 1, listing_id := 1, field_id := 1, filled := true,
                       raw_text := "Garage", analyst := "ana" }],
    nextListingId := 3, nextFieldId := 2, nextObsId := 2 }

/-- Result of running bulk-mark-empty on `demoBulk`, used by the C9
witness. -/
def demoBulkRun : Store × Nat :=
  (bulk_mark_empty demoBulk 1 "bulk_user").getD (emptyStore, 0)

/-- Decides the `JOIN listing l ON o.listing_id = l.id WHERE l.batch = :batch`
part of the summary query: the observation's listing row (unique primary
key) belongs to the batch. -/
def obsInBatch (s : Store) (batch : String) (o : Observation) : Bool :=
  s.listings.any (fun l => l.id == o.listing_id && l.batch == batch)

/-- One row of the JSON array returned by `batch_summary`. -/
structure SummaryRow where
  field_id : Nat
  canonical : String
  filled : Nat
  empty : Nat
  sample : Nat
deriving Repr, DecidableEq

/-- Route `batch_summary` (lines 98-114): the grouped SQL query.  One row
per Field with at least one Observation whose Listing is in the batch;
`filled`/`empty` count the observations by flag, `sample` counts them all;
rows are ordered by sample count descending. -/
def batch_summary (s : Store) (batch : String) : List SummaryRow :=
  let rows := s.fields.filterMap (fun f =>
    let grp := (s.observations.filter (obsInBatch s batch)).filter
      (fun o => o.field_id == f.id)
    if grp.isEmpty then none
    else some { field_id := f.id, canonical := f.canonical,
                filled := (grp.filter (fun o => o.filled)).length,
                empty := (grp.filter (fun o => !o.filled)).length,
                sample := grp.length })
  rows.insertionSort (fun a b => b.sample ≤ a.sample)

/-- Demonstration store for the summary witness: one in-batch and one
out-of-batch observation of the same field. -/
def demoSum : Store :=
  { listings := [{ id := 1, batch := "default", listing_id_text := "L1" },
                 { id := 2, batch := "other", listing_id_text := "L2" }],
    fields := [{ id := 1, canonical := "Garage" }],
    observations := [{ id := 1, listing_id := 1, field_id := 1, filled := true,
                       raw_text := "Garage", analyst := "ana" },
                     { id := 2, listing_id := 2, field_id := 1, filled := false,
                       raw_text := "Garage", analyst := "ana" }],
    nextListingId := 3, nextFieldId := 2, nextObsId := 3 }

/-- Lookup used by `field_detail` (line 122) and by the gap check of
`bulk_mark_empty` (line 137): `filter_by(listing_id, field_id).first()`,
the first match in query order. -/
def first_observation_for (obs : List Observation) (lid fid : Nat) :
    Option Observation :=
  obs.find? (fun o => o.listing_id == lid && o.field_id == fid)

/-- Status string computed per listing row by `field_detail`
(lines 122-126). -/
def field_detail_status (s : Store) (lid fid : Nat) : String :=
  match first_observation_for s.observations lid fid with
  | some o => if o.filled then "filled" else "empty"
  | none => "unchecked"

/-- Lookup through the `obs_map` dictionary of the matrix exporter
(lines 243-250): the dict comprehension writes observations in query order,
so for a duplicated (field, listing) key the LAST write wins; modelled by
the same left fold with overwrite. -/
def obs_map_get (obs : List Observation) (fid lid : Nat) : Option Observation :=
  obs.foldl
    (fun acc o => if o.field_id == fid && o.listing_id == lid then some o else acc)
    none

/-- Cell glyph of the matrix export (lines 251-254). -/
def cellSymbol (obs : List Observation) (fid lid : Nat) : String :=
  match obs_map_get obs fid lid with
  | none => "—"
  | some o => if o.filled then "✔️" else "✖️"

/-- Helper `build_listing_order` (lines 206-208): batch-scoped listings in
creation order (ascending `created_at`, i.e. insertion order). -/
def build_listing_order (s : Store) (batch : String) : List Listing :=
  s.listings.filter (fun l => l.batch == batch)

/-- Count of one glyph in a row's listing cells; models the emitted
spreadsheet formula `=COUNTIF(range, glyph)` (lines 306-307). -/
def countGlyph (cells : List String) (g : String) : Nat :=
  (cells.filter (fun c => c == g)).length

/-- Listing-column cells of one field row of the exported grid
(lines 246-256). -/
def fieldRowCells (s : Store) (listings : List Listing) (f : Field) :
    List String :=
  listings.map (fun l => cellSymbol s.observations f.id l.id)

/-- Derived summary of one field row as the spreadsheet evaluates the
emitted formulas: filled and empty glyph counts (`COUNTIF`) and the
removal recommendation `=IF(AND(empty>=6,(filled+empty)>=10),"YES","NO")`
(lines 306-309). -/
structure FieldSummary where
  canonical : String
  filledCount : Nat
  emptyCount : Nat
  remove : String
deriving Repr, DecidableEq

/-- Evaluated per-field summary row of the matrix export. -/
def fieldSummary (s : Store) (listings : List Listing) (f : Field) :
    FieldSummary :=
  let cells := fieldRowCells s listings f
  let fc := countGlyph cells "✔️"
  let ec := countGlyph cells "✖️"
  { canonical := f.canonical, filledCount := fc, emptyCount := ec,
    remove := if 6 ≤ ec ∧ 10 ≤ fc + ec then "YES" else "NO" }

/-- Store with ten listings in which the field's row has six empty and four
filled cells: the YES boundary case of the removal recommendation. -/
def demoRemove64 : Store :=
  { listings := (List.range 10).map
      (fun i => { id := i + 1, batch := "default", listing_id_text := "L" }),
    fields := [{ id := 1, canonical := "Garage" }],
    observations := (List.range 10).map
      (fun i => { id := i + 1, listing_id := i + 1, field_id := 1,
                  filled := 6 ≤ i, raw_text := "Garage", analyst := "ana" }),
    nextListingId := 11, nextFieldId := 2, nextObsId := 11 }

/-- Store with ten listings in which the field's row has five empty and
five filled cells: the NO boundary case of the removal recommendation. -/
def demoRemove55 : Store :=
  { listings := (List.range 10).map
      (fun i => { id := i + 1, batch := "default", listing_id_text := "L" }),
    fields := [{ id := 1, canonical := "Garage" }],
    observations := (List.range 10).map
      (fun i => { id := i + 1, listing_id := i + 1, field_id := 1,
                  filled := 5 ≤ i, raw_text := "Garage", analyst := "ana" }),
    nextListingId := 11, nextFieldId := 2, nextObsId := 11 }

/-- Store with two observations for the same (listing, field) pair: the
first filled, the second empty. -/
def demoDup : Store :=
  { listings := [{ id := 1, batch := "default", listing_id_text := "L1" }],
    fields := [{ id := 1, canonical := "Garage" }],
    observations := [{ id := 1, listing_id := 1, field_id := 1, filled := true,
                       raw_text := "Garage", analyst := "ana" },
                     { id := 2, listing_id := 1, field_id := 1, filled := false,
                       raw_text := "Garage", analyst := "ana" }],
    nextListingId := 2, nextFieldId := 2, nextObsId := 3 }

/-- One data row of `observations.csv`, keyed by the header
`listing_id,field,filled,analyst,checked_at`; all cells are strings as in
the file (`checked_at` is omitted with the timestamps). -/
structure CsvRow where
  listing_id : String
  field : String
  filled : String
  analyst : String
deriving Repr, DecidableEq

/-- Row written for one observation by `export_observations`
(lines 150-152): the observation joined to its Listing and Field rows by
primary key (inner join: an unresolvable reference produces no row),
`filled` rendered as `int(filled)`. -/
def exportRow (s : Store) (o : Observation) : Option CsvRow :=
  match s.listings.find? (fun l => l.id == o.listing_id),
        s.fields.find? (fun f => f.id == o.field_id) with
  | some l, some f =>
      some { listing_id := l.listing_id_text, field := f.canonical,
             filled := if o.filled then "1" else "0", analyst := o.analyst }
  | _, _ => none

/-- Route `export_observations` (lines 145-156): the full joined table. -/
def export_observations (s : Store) : List CsvRow :=
  s.observations.filterMap (exportRow s)

/-- Find-or-create on the `listing` table by the (text, batch) natural key,
as performed by `import_obs` (lines 175-178). -/
def getOrCreateListing (s : Store) (batch text : String) : Listing × Store :=
  match s.listings.find? (fun l => l.listing_id_text == text && l.batch == batch) with
  | some l => (l, s)
  | none =>
      let l : Listing := { id := s.nextListingId, batch := batch, listing_id_text := text }
      (l, { s with listings := s.listings ++ [l], nextListingId := s.nextListingId + 1 })

/-- Body of the import loop for a non-skipped row (lines 175-184):
find-or-create the Listing and the Field, then append the Observation. -/
def importStep (batch analyst : String) (s : Store)
    (listing_text field_name : String) (filled : Bool) : Store :=
  let lres := getOrCreateListing s batch listing_text
  let fres := getOrCreateField lres.2 field_name
  { fres.2 with
    observations := fres.2.observations ++
      [{ id := fres.2.nextObsId, listing_id := lres.1.id, field_id := fres.1.id,
         filled := filled, raw_text := field_name, analyst := analyst }],
    nextObsId := fres.2.nextObsId + 1 }

/-- Route `import_obs` (lines 158-186) on an already-parsed CSV.  For each
row the source runs `bool(int(row.get('filled','0')))` BEFORE the blank
checks (line 172 before line 173), so a non-integer `filled` cell raises an
uncaught `ValueError`, modelled by the `Except.error` branch; rows whose
listing id or field name is blank after stripping are skipped silently. -/
def import_obs (batch analyst : String) : Store → List CsvRow → Except String Store
  | s, [] => .ok s
  | s, row :: rest =>
      match pyInt? row.filled with
      | none => .error "invalid literal for int() with base 10"
      | some i =>
          let listing_text := pyStrip row.listing_id
          let field_name := pyStrip row.field
          if listing_text = "" ∨ field_name = "" then
            import_obs batch analyst s rest
          else
            import_obs batch analyst
              (importStep batch analyst s listing_text field_name (pyBool i)) rest

/-- Resolution of one observation to its (listing text, field canonical,
filled) triple through the primary-key joins. -/
def obsTriple (s : Store) (o : Observation) : Option (String × String × Bool) :=
  match s.listings.find? (fun l => l.id == o.listing_id),
        s.fields.find? (fun f => f.id == o.field_id) with
  | some l, some f => some (l.listing_id_text, f.canonical, o.filled)
  | _, _ => none

/-- Multiset of resolved (listing text, field canonical, filled) triples of
a store, in observation order. -/
def storeTriples (s : Store) : List (String × String × Bool) :=
  s.observations.filterMap (obsTriple s)

/-- Triple a CSV row denotes on import: stripped listing text, stripped
field name, and the truthiness of its parsed `filled` cell. -/
def rowTriple (r : CsvRow) : String × String × Bool :=
  (pyStrip r.listing_id, pyStrip r.field, pyBool ((pyInt? r.filled).getD 0))

/-- Rows the import path neither skips nor crashes on. -/
def goodRow (r : CsvRow) : Prop :=
  pyStrip r.listing_id ≠ "" ∧ pyStrip r.field ≠ "" ∧ (pyInt? r.filled).isSome

/-- Internal consistency of a store's identifiers: primary keys are unique
and below the auto-increment counters, and observations reference existing
rows (referential integrity). -/
def StoreIds (s : Store) : Prop :=
  (s.listings.map (fun l => l.id)).Nodup ∧
  (s.fields.map (fun f => f.id)).Nodup ∧
  (∀ l ∈ s.listings, l.id < s.nextListingId) ∧
  (∀ f ∈ s.fields, f.id < s.nextFieldId) ∧
  (∀ o ∈ s.observations, ∃ l ∈ s.listings, o.listing_id = l.id) ∧
  (∀ o ∈ s.observations, ∃ f ∈ s.fields, o.field_id = f.id)

/-- Well-formedness of a reachable store: consistent identifiers plus the
textual invariants the write paths maintain (listing texts and canonical
names are stripped and non-blank). -/
def StoreWF (s : Store) : Prop :=
  StoreIds s ∧
  (∀ l ∈ s.listings, pyStrip l.listing_id_text = l.listing_id_text ∧
    l.listing_id_text ≠ "") ∧
  (∀ f ∈ s.fields, pyStrip f.canonical = f.canonical ∧ f.canonical ≠ "")

/-- The `getOrCreateField` helper touches only the `field` table and its
counter. -/
theorem getOrCreateField_frame (s : Store) (canon : String) :
    (getOrCreateField s canon).2.listings = s.listings ∧
    (getOrCreateField s canon).2.observations = s.observations ∧
    (getOrCreateField s canon).2.nextListingId = s.nextListingId ∧
    (getOrCreateField s canon).2.nextObsId = s.nextObsId := by
  unfold getOrCreateField
  cases s.fields.find? (fun f => f.canonical == canon) <;> simp

/-- Folding `addObsStep` leaves listings untouched and appends exactly one
observation per non-blank entry, each referencing listing `lid`. -/
theorem foldl_addObsStep (lid : Nat) (an : String) :
    ∀ (entries : List ObsEntry) (t : Store),
      (entries.foldl (addObsStep lid an) t).listings = t.listings ∧
      ∃ new : List Observation,
        (entries.foldl (addObsStep lid an) t).observations = t.observations ++ new ∧
        new.length = entries.countP (fun e => !blankEntry e) ∧
        ∀ o ∈ new, o.listing_id = lid := by
  intro entries
  induction entries with
  | nil => intro t; exact ⟨rfl, [], by simp⟩
  | cons e rest ih =>
      intro t
      by_cases hb : pyStrip (e.field_text.getD "") = ""
      · have hstep : addObsStep lid an t e = t := by
          unfold addObsStep; simp [hb]
        have hcount : (e :: rest).countP (fun e => !blankEntry e) =
            rest.countP (fun e => !blankEntry e) := by
          rw [List.countP_cons]
          simp [blankEntry, hb]
        simpa [List.foldl_cons, hstep, hcount] using ih t
      · set t' := addObsStep lid an t e with ht'
        obtain ⟨hl, new, hobs, hlen, hmem⟩ := ih t'
        set raw := pyStrip (e.field_text.getD "") with hraw
        set gof := getOrCreateField t raw with hgof
        set ob : Observation :=
          { id := gof.2.nextObsId, listing_id := lid, field_id := gof.1.id,
            filled := e.filled, raw_text := raw, analyst := an } with hob
        have hobs' : t'.observations = t.observations ++ [ob] := by
          rw [ht']
          unfold addObsStep
          simp only [← hraw, if_neg hb, ← hgof]
          rw [(getOrCreateField_frame t raw).2.1]
        have hl' : t'.listings = t.listings := by
          rw [ht']
          unfold addObsStep
          simp only [← hraw, if_neg hb, ← hgof]
          exact (getOrCreateField_frame t raw).1
        refine ⟨by rw [List.foldl_cons, ← ht', hl, hl'], ob :: new, ?_, ?_, ?_⟩
        · rw [List.foldl_cons, ← ht', hobs, hobs']
          simp
        · rw [List.countP_cons]
          have : (fun e => !blankEntry e) e = true := by
            simp [blankEntry, ← hraw, hb]
          simp only [List.length_cons, this, if_pos]
          omega
        · intro o ho
          rcases List.mem_cons.mp ho with h | h
          · rw [h, hob]
          · exact hmem o h

/-- Counting the entries a Boolean predicate rejects complements counting
the ones it accepts. -/
theorem countP_not_eq {α : Type} (p : α → Bool) (l : List α) :
    l.countP (fun a => !p a) = l.length - l.countP p := by
  induction l with
  | nil => rfl
  | cons x xs ih =>
      have hle : xs.countP p ≤ xs.length := List.countP_le_length p
      rw [List.countP_cons, List.countP_cons, List.length_cons]
      cases h : p x
      · simp [h, ih]
        omega
      · simp [h, ih]

/-- Claim C2: a `recordListing` call with a non-blank listing id and N
observation entries of which K have blank field text creates exactly one new
Listing and exactly N - K new Observations, each referencing that Listing. -/
theorem add_listing_creates (s : Store) (batch : String) (req : AddListingReq)
    (h : pyStrip (req.listing_id.getD "") ≠ "") :
    (add_listing s batch req).2.listings = s.listings ++
      [{ id := s.nextListingId, batch := batch,
         listing_id_text := pyStrip (req.listing_id.getD "") }] ∧
    (add_listing s batch req).2.observations.length = s.observations.length +
      (req.observations.length - req.observations.countP blankEntry) ∧
    ∀ o ∈ (add_listing s batch req).2.observations.drop s.observations.length,
      o.listing_id = s.nextListingId := by
  have hout : add_listing s batch req =
      (.ok s.nextListingId,
        req.observations.foldl (addObsStep s.nextListingId (req.analyst.getD "unknown"))
          { s with
            listings := s.listings ++
              [{ id := s.nextListingId, batch := batch,
                 listing_id_text := pyStrip (req.listing_id.getD "") }],
            nextListingId := s.nextListingId + 1 }) := by
    unfold add_listing
    simp [if_neg h]
  obtain ⟨hl, new, hobs, hlen, hmem⟩ :=
    foldl_addObsStep s.nextListingId (req.analyst.getD "unknown") req.observations
      { s with
        listings := s.listings ++
          [{ id := s.nextListingId, batch := batch,
             listing_id_text := pyStrip (req.listing_id.getD "") }],
        nextListingId := s.nextListingId + 1 }
  refine ⟨by rw [hout]; exact hl, ?_, ?_⟩
  · rw [hout]
    simp only at hobs
    rw [hobs, List.length_append, hlen, countP_not_eq]
  · intro o ho
    apply hmem
    rw [hout] at ho
    simp only at ho hobs
    rw [hobs, List.drop_left] at ho
    exact ho

/-- Witness for C2: one non-blank entry among three (one whitespace-only,
one with the key absent) yields one Listing and one Observation. -/
theorem add_listing_creates_witness :
    pyStrip ((AddListingReq.mk (some " L-100 ")
        [⟨some "Garage", true⟩, ⟨some "  ", false⟩, ⟨none, true⟩]
        (some "ana")).listing_id.getD "") ≠ "" ∧
    ((add_listing emptyStore "default"
        (AddListingReq.mk (some " L-100 ")
          [⟨some "Garage", true⟩, ⟨some "  ", false⟩, ⟨none, true⟩]
          (some "ana"))).2.listings = emptyStore.listings ++
      [{ id := emptyStore.nextListingId, batch := "default",
         listing_id_text := pyStrip ((AddListingReq.mk (some " L-100 ")
           [⟨some "Garage", true⟩, ⟨some "  ", false⟩, ⟨none, true⟩]
           (some "ana")).listing_id.getD "") }] ∧
    (add_listing emptyStore "default"
        (AddListingReq.mk (some " L-100 ")
          [⟨some "Garage", true⟩, ⟨some "  ", false⟩, ⟨none, true⟩]
          (some "ana"))).2.observations.length = emptyStore.observations.length +
      ((AddListingReq.mk (some " L-100 ")
          [⟨some "Garage", true⟩, ⟨some "  ", false⟩, ⟨none, true⟩]
          (some "ana")).observations.length -
        (AddListingReq.mk (some " L-100 ")
          [⟨some "Garage", true⟩, ⟨some "  ", false⟩, ⟨none, true⟩]
          (some "ana")).observations.countP blankEntry) ∧
    ∀ o ∈ (add_listing emptyStore "default"
        (AddListingReq.mk (some " L-100 ")
          [⟨some "Garage", true⟩, ⟨some "  ", false⟩, ⟨none, true⟩]
          (some "ana"))).2.observations.drop emptyStore.observations.length,
      o.listing_id = emptyStore.nextListingId) :=
  ⟨by decide,
   add_listing_creates emptyStore "default"
     (AddListingReq.mk (some " L-100 ")
       [⟨some "Garage", true⟩, ⟨some "  ", false⟩, ⟨none, true⟩]
       (some "ana")) (by decide)⟩

/-- Claim C8: a `recordListing` request whose listing id is blank after
stripping is rejected with a structured 400 error and the store is
unchanged, so no Listing and no Observation is created. -/
theorem add_listing_blank_rejected (s : Store) (batch : String)
    (req : AddListingReq) (h : pyStrip (req.listing_id.getD "") = "") :
    add_listing s batch req = (ApiResult.err "listing_id required" 400, s) := by
  unfold add_listing
  simp [h]

/-- Witness for C8: a whitespace-only listing id is rejected and creates
nothing. -/
theorem add_listing_blank_rejected_witness :
    pyStrip ((AddListingReq.mk (some "   ") [⟨some "Garage", true⟩]
        none).listing_id.getD "") = "" ∧
    add_listing emptyStore "default"
        (AddListingReq.mk (some "   ") [⟨some "Garage", true⟩] none) =
      (ApiResult.err "listing_id required" 400, emptyStore) :=
  ⟨by decide,
   add_listing_blank_rejected emptyStore "default"
     (AddListingReq.mk (some "   ") [⟨some "Garage", true⟩] none) (by decide)⟩

/-- Unfolding equation for `bulkStep` when the pair is already covered. -/
theorem bulkStep_found (fid : Nat) (canon an : String) (t : Store) (c : Nat)
    (l : Listing) (o₀ : Observation)
    (hfind : t.observations.find?
      (fun o => o.listing_id == l.id && o.field_id == fid) = some o₀) :
    bulkStep fid canon an (t, c) l = (t, c) := by
  unfold bulkStep
  rw [hfind]

/-- Unfolding equation for `bulkStep` when the pair has no observation. -/
theorem bulkStep_missing (fid : Nat) (canon an : String) (t : Store) (c : Nat)
    (l : Listing)
    (hfind : t.observations.find?
      (fun o => o.listing_id == l.id && o.field_id == fid) = none) :
    bulkStep fid canon an (t, c) l = (bulkAppend fid canon an t l, c + 1) := by
  unfold bulkStep bulkAppend
  rw [hfind]

/-- Folding `bulkStep` leaves listings and fields untouched and appends only
gap-filling observations: each new row is empty, is for the given field, and
is for a processed listing whose pair had no observation at the start of the
fold. -/
theorem foldl_bulkStep (fid : Nat) (canon an : String) :
    ∀ (L : List Listing) (t : Store) (c : Nat),
      (L.foldl (bulkStep fid canon an) (t, c)).1.listings = t.listings ∧
      (L.foldl (bulkStep fid canon an) (t, c)).1.fields = t.fields ∧
      ∃ new : List Observation,
        (L.foldl (bulkStep fid canon an) (t, c)).1.observations =
          t.observations ++ new ∧
        ∀ o ∈ new, o.filled = false ∧ o.field_id = fid ∧
          ∃ l ∈ L, o.listing_id = l.id ∧
            t.observations.find?
              (fun o' => o'.listing_id == l.id && o'.field_id == fid) = none := by
  intro L
  induction L with
  | nil => intro t c; exact ⟨rfl, rfl, [], by simp⟩
  | cons l rest ih =>
      intro t c
      rw [List.foldl_cons]
      cases hfind : t.observations.find?
          (fun o => o.listing_id == l.id && o.field_id == fid) with
      | some o₀ =>
          rw [bulkStep_found fid canon an t c l o₀ hfind]
          obtain ⟨h₁, h₂, new, h₃, h₄⟩ := ih t c
          exact ⟨h₁, h₂, new, h₃, fun o ho =>
            let ⟨ha, hb, ll, hll, hc⟩ := h₄ o ho
            ⟨ha, hb, ll, List.mem_cons_of_mem l hll, hc⟩⟩
      | none =>
          rw [bulkStep_missing fid canon an t c l hfind]
          obtain ⟨h₁, h₂, new, h₃, h₄⟩ := ih (bulkAppend fid canon an t l) (c + 1)
          refine ⟨h₁, h₂,
            { id := t.nextObsId, listing_id := l.id, field_id := fid,
              filled := false, raw_text := canon, analyst := an } :: new,
            by rw [h₃]; simp [bulkAppend], ?_⟩
          intro o ho
          rcases List.mem_cons.mp ho with h | h
          · exact ⟨by rw [h], by rw [h], l, List.mem_cons_self l rest,
              by rw [h], hfind⟩
          · obtain ⟨ha, hb, ll, hll, hd, hc⟩ := h₄ o h
            refine ⟨ha, hb, ll, List.mem_cons_of_mem l hll, hd, ?_⟩
            have hc' : (t.observations ++
                [({ id := t.nextObsId, listing_id := l.id, field_id := fid,
                    filled := false, raw_text := canon,
                    analyst := an } : Observation)]).find?
                (fun o' => o'.listing_id == ll.id && o'.field_id == fid) = none := hc
            rw [List.find?_append] at hc'
            exact (Option.or_eq_none.mp hc').1

/-- After folding `bulkStep`, every processed listing's pair is covered by
some observation. -/
theorem foldl_bulkStep_covers (fid : Nat) (canon an : String) :
    ∀ (L : List Listing) (t : Store) (c : Nat), ∀ l ∈ L,
      ((L.foldl (bulkStep fid canon an) (t, c)).1.observations.find?
        (fun o => o.listing_id == l.id && o.field_id == fid)).isSome := by
  intro L
  induction L with
  | nil => intro t c l hl; exact absurd hl (List.not_mem_nil l)
  | cons x rest ih =>
      intro t c l hl
      rw [List.foldl_cons]
      rcases List.mem_cons.mp hl with h | h
      · subst h
        cases hfind : t.observations.find?
            (fun o => o.listing_id == l.id && o.field_id == fid) with
        | some o₀ =>
            rw [bulkStep_found fid canon an t c l o₀ hfind]
            obtain ⟨-, -, new, h₃, -⟩ := foldl_bulkStep fid canon an rest t c
            rw [h₃, List.find?_append, hfind]
            simp
        | none =>
            rw [bulkStep_missing fid canon an t c l hfind]
            obtain ⟨-, -, new, h₃, -⟩ := foldl_bulkStep fid canon an rest
              (bulkAppend fid canon an t l) (c + 1)
            rw [h₃]
            unfold bulkAppend
            simp only
            rw [List.find?_append, List.find?_append, hfind]
            have hone : List.find?
                (fun o => o.listing_id == l.id && o.field_id == fid)
                [({ id := t.nextObsId, listing_id := l.id, field_id := fid,
                    filled := false, raw_text := canon,
                    analyst := an } : Observation)] =
                some ({ id := t.nextObsId, listing_id := l.id, field_id := fid,
                        filled := false, raw_text := canon,
                        analyst := an } : Observation) := by
              simp
            rw [hone]
            simp
      · cases hfind : t.observations.find?
            (fun o => o.listing_id == x.id && o.field_id == fid) with
        | some o₀ =>
            rw [bulkStep_found fid canon an t c x o₀ hfind]
            exact ih t c l h
        | none =>
            rw [bulkStep_missing fid canon an t c x hfind]
            exact ih (bulkAppend fid canon an t x) (c + 1) l h

/-- Folding `bulkStep` over listings whose pairs are all covered already is
a no-op. -/
theorem foldl_bulkStep_noop (fid : Nat) (canon an : String) :
    ∀ (L : List Listing) (t : Store) (c : Nat),
      (∀ l ∈ L, (t.observations.find?
        (fun o => o.listing_id == l.id && o.field_id == fid)).isSome) →
      L.foldl (bulkStep fid canon an) (t, c) = (t, c) := by
  intro L
  induction L with
  | nil => intro t c _; rfl
  | cons x rest ih =>
      intro t c hcov
      rw [List.foldl_cons]
      obtain ⟨o₀, ho₀⟩ := Option.isSome_iff_exists.mp (hcov x (List.mem_cons_self x rest))
      rw [bulkStep_found fid canon an t c x o₀ ho₀]
      exact ih t c (fun l hl => hcov l (List.mem_cons_of_mem x hl))

/-- Claim C6: `bulkMarkEmpty` creates empty observations only for pairs that
had none before the run, and running it again immediately afterwards
creates zero new observations and leaves the store as it was. -/
theorem bulk_mark_empty_gap_fill (s : Store) (fid : Nat) (an : String)
    (fld : Field) (hf : s.fields.find? (fun f => f.id == fid) = some fld) :
    ∃ s' c, bulk_mark_empty s fid an = some (s', c) ∧
      (∀ o ∈ s'.observations.drop s.observations.length,
        o.filled = false ∧ o.field_id = fid ∧
        ∃ l ∈ s.listings, o.listing_id = l.id ∧
          s.observations.find?
            (fun o' => o'.listing_id == l.id && o'.field_id == fid) = none) ∧
      bulk_mark_empty s' fid an = some (s', 0) := by
  obtain ⟨h₁, h₂, new, h₃, h₄⟩ := foldl_bulkStep fid fld.canonical an s.listings s 0
  set r := s.listings.foldl (bulkStep fid fld.canonical an) (s, 0) with hr
  have hrun : bulk_mark_empty s fid an = some r := by
    unfold bulk_mark_empty; rw [hf]
  refine ⟨r.1, r.2, by rw [hrun], ?_, ?_⟩
  · intro o ho
    rw [h₃, List.drop_left] at ho
    exact h₄ o ho
  · have hf' : r.1.fields.find? (fun f => f.id == fid) = some fld := by
      rw [h₂, hf]
    have hcov : ∀ l ∈ r.1.listings, (r.1.observations.find?
        (fun o => o.listing_id == l.id && o.field_id == fid)).isSome := by
      rw [h₁]
      intro l hl
      exact foldl_bulkStep_covers fid fld.canonical an s.listings s 0 l hl
    have hnoop := foldl_bulkStep_noop fid fld.canonical an r.1.listings r.1 0 hcov
    unfold bulk_mark_empty
    rw [hf']
    exact congrArg some hnoop

/-- Witness for C6 on `demoBulk`. -/
theorem bulk_mark_empty_gap_fill_witness :
    demoBulk.fields.find? (fun f => f.id == 1) =
      some { id := 1, canonical := "Garage" } ∧
    ∃ s' c, bulk_mark_empty demoBulk 1 "bulk_user" = some (s', c) ∧
      (∀ o ∈ s'.observations.drop demoBulk.observations.length,
        o.filled = false ∧ o.field_id = 1 ∧
        ∃ l ∈ demoBulk.listings, o.listing_id = l.id ∧
          demoBulk.observations.find?
            (fun o' => o'.listing_id == l.id && o'.field_id == 1) = none) ∧
      bulk_mark_empty s' 1 "bulk_user" = some (s', 0) :=
  ⟨by decide,
   bulk_mark_empty_gap_fill demoBulk 1 "bulk_user"
     { id := 1, canonical := "Garage" } (by decide)⟩

/-- Claim C9: `bulkMarkEmpty` only appends: listings and fields are exactly
preserved, and the prior observation rows form an unchanged prefix of the
final observation table. -/
theorem bulk_mark_empty_only_appends (s : Store) (fid : Nat) (an : String)
    (s' : Store) (c : Nat) (h : bulk_mark_empty s fid an = some (s', c)) :
    s'.listings = s.listings ∧ s'.fields = s.fields ∧
    ∃ new : List Observation, s'.observations = s.observations ++ new := by
  unfold bulk_mark_empty at h
  cases hf : s.fields.find? (fun f => f.id == fid) with
  | none => rw [hf] at h; exact absurd h (by simp)
  | some fld =>
      rw [hf] at h
      obtain ⟨h₁, h₂, new, h₃, -⟩ := foldl_bulkStep fid fld.canonical an s.listings s 0
      have heq : s.listings.foldl (bulkStep fid fld.canonical an) (s, 0) = (s', c) :=
        Option.some.inj h
      have hs' : s' = (s.listings.foldl (bulkStep fid fld.canonical an) (s, 0)).1 :=
        (congrArg Prod.fst heq).symm
      exact ⟨by rw [hs', h₁], by rw [hs', h₂], new, by rw [hs', h₃]⟩

/-- Witness for C9 on `demoBulk`. -/
theorem bulk_mark_empty_only_appends_witness :
    demoBulkRun.1.listings = demoBulk.listings ∧
    demoBulkRun.1.fields = demoBulk.fields ∧
    ∃ new : List Observation,
      demoBulkRun.1.observations = demoBulk.observations ++ new :=
  bulk_mark_empty_only_appends demoBulk 1 "bulk_user" demoBulkRun.1 demoBulkRun.2
    (by decide)

/-- Splitting a list by a Boolean predicate partitions its length. -/
theorem filter_partition_length {α : Type} (p : α → Bool) (l : List α) :
    (l.filter p).length + (l.filter (fun a => !p a)).length = l.length := by
  induction l with
  | nil => rfl
  | cons x xs ih =>
      rw [List.filter_cons, List.filter_cons]
      cases h : p x <;> simp [h] <;> omega

/-- Claim C1: every summary row satisfies filled + empty = sample, and its
sample count is the direct count of Observations for the row's field whose
Listing belongs to the batch (so out-of-batch Observations contribute to no
row). -/
theorem batch_summary_consistent (s : Store) (batch : String) :
    ∀ row ∈ batch_summary s batch,
      row.filled + row.empty = row.sample ∧
      row.sample = (s.observations.filter
        (fun o => o.field_id == row.field_id && obsInBatch s batch o)).length := by
  intro row hrow
  unfold batch_summary at hrow
  rw [(List.perm_insertionSort _ _).mem_iff] at hrow
  obtain ⟨f, hf, hsome⟩ := List.mem_filterMap.mp hrow
  set grp := (s.observations.filter (obsInBatch s batch)).filter
    (fun o => o.field_id == f.id) with hgrp
  by_cases hemp : grp.isEmpty
  · rw [if_pos hemp] at hsome
    exact absurd hsome (by simp)
  · rw [if_neg hemp] at hsome
    have hrow' : row =
        { field_id := f.id,
          canonical := f.canonical,
          filled := (grp.filter (fun o => o.filled)).length,
          empty := (grp.filter (fun o => !o.filled)).length,
          sample := grp.length } := (Option.some.inj hsome).symm
    subst hrow'
    refine ⟨filter_partition_length (fun o => o.filled) grp, ?_⟩
    show grp.length = _
    rw [hgrp, List.filter_filter]

/-- Witness for C1: the single summary row of `demoSum` for batch
`default` counts only the in-batch observation. -/
theorem batch_summary_consistent_witness :
    (SummaryRow.mk 1 "Garage" 1 0 1) ∈ batch_summary demoSum "default" ∧
    ((SummaryRow.mk 1 "Garage" 1 0 1).filled +
        (SummaryRow.mk 1 "Garage" 1 0 1).empty =
      (SummaryRow.mk 1 "Garage" 1 0 1).sample ∧
    (SummaryRow.mk 1 "Garage" 1 0 1).sample = (demoSum.observations.filter
      (fun o => o.field_id == (SummaryRow.mk 1 "Garage" 1 0 1).field_id &&
        obsInBatch demoSum "default" o)).length) :=
  ⟨by decide,
   batch_summary_consistent demoSum "default" (SummaryRow.mk 1 "Garage" 1 0 1)
     (by decide)⟩

/-- Claim C3: the removal recommendation of a matrix summary row is YES
exactly when its empty-glyph count is at least 6 and its total glyph sample
is at least 10; on the boundary, six empty with four filled yields YES and
five empty with five filled yields NO. -/
theorem remove_candidate_iff :
    (∀ (s : Store) (listings : List Listing) (f : Field),
      (fieldSummary s listings f).remove = "YES" ↔
        (6 ≤ (fieldSummary s listings f).emptyCount ∧
         10 ≤ (fieldSummary s listings f).filledCount +
           (fieldSummary s listings f).emptyCount)) ∧
    ((fieldSummary demoRemove64
        (build_listing_order demoRemove64 "default")
        { id := 1, canonical := "Garage" }).emptyCount = 6 ∧
     (fieldSummary demoRemove64
        (build_listing_order demoRemove64 "default")
        { id := 1, canonical := "Garage" }).filledCount = 4 ∧
     (fieldSummary demoRemove64
        (build_listing_order demoRemove64 "default")
        { id := 1, canonical := "Garage" }).remove = "YES") ∧
    ((fieldSummary demoRemove55
        (build_listing_order demoRemove55 "default")
        { id := 1, canonical := "Garage" }).emptyCount = 5 ∧
     (fieldSummary demoRemove55
        (build_listing_order demoRemove55 "default")
        { id := 1, canonical := "Garage" }).filledCount = 5 ∧
     (fieldSummary demoRemove55
        (build_listing_order demoRemove55 "default")
        { id := 1, canonical := "Garage" }).remove = "NO") := by
  refine ⟨?_, by decide, by decide⟩
  intro s listings f
  show (if 6 ≤ countGlyph (fieldRowCells s listings f) "✖️" ∧
        10 ≤ countGlyph (fieldRowCells s listings f) "✔️" +
          countGlyph (fieldRowCells s listings f) "✖️"
      then "YES" else "NO") = "YES" ↔ _
  by_cases h : 6 ≤ countGlyph (fieldRowCells s listings f) "✖️" ∧
      10 ≤ countGlyph (fieldRowCells s listings f) "✔️" +
        countGlyph (fieldRowCells s listings f) "✖️"
  · rw [if_pos h]
    exact ⟨fun _ => h, fun _ => rfl⟩
  · rw [if_neg h]
    exact ⟨fun hc => absurd hc (by decide), fun hc => absurd hc h⟩

/-- Left fold with overwrite returns the last match: it equals `find?` on
the reversed list, seeded with the initial accumulator. -/
theorem foldl_overwrite_eq_find_reverse (p : Observation → Bool) :
    ∀ (l : List Observation) (acc : Option Observation),
      l.foldl (fun a o => if p o then some o else a) acc =
        (l.reverse.find? p).or acc := by
  intro l
  induction l with
  | nil => intro acc; simp
  | cons x xs ih =>
      intro acc
      rw [List.foldl_cons, ih, List.reverse_cons, List.find?_append,
        Option.or_assoc]
      congr 1
      cases h : p x <;> simp [h]

/-- Counterexample to C7: on a duplicated pair the matrix cell lookup
(`obs_map`) returns the second observation while the field-detail lookup
returns the first, so not every pair lookup selects the first match. -/
theorem pair_lookup_not_all_first :
    first_observation_for demoDup.observations 1 1 =
      some { id := 1, listing_id := 1, field_id := 1, filled := true,
             raw_text := "Garage", analyst := "ana" } ∧
    obs_map_get demoDup.observations 1 1 =
      some { id := 2, listing_id := 1, field_id := 1, filled := false,
             raw_text := "Garage", analyst := "ana" } ∧
    field_detail_status demoDup 1 1 = "filled" ∧
    cellSymbol demoDup.observations 1 1 = "✖️" ∧
    ¬ obs_map_get demoDup.observations 1 1 =
        first_observation_for demoDup.observations 1 1 := by
  refine ⟨by decide, by decide, by decide, by decide, by decide⟩

/-- Claim C7 (amended): the field-detail status and the bulk-mark-empty gap
check select the first match in query order (`find?`), while the matrix
cell symbol's `obs_map` lookup selects the last match in query order
(`find?` on the reversed table). -/
theorem pair_lookup_order (obs : List Observation) (lid fid : Nat) :
    first_observation_for obs lid fid =
      obs.find? (fun o => o.listing_id == lid && o.field_id == fid) ∧
    obs_map_get obs fid lid =
      obs.reverse.find? (fun o => o.field_id == fid && o.listing_id == lid) := by
  refine ⟨rfl, ?_⟩
  have h := foldl_overwrite_eq_find_reverse
    (fun o => o.field_id == fid && o.listing_id == lid) obs none
  rw [Option.or_none] at h
  exact h

/-- Lookup by a key whose values are distinct finds exactly the member with
that key. -/
theorem find?_key_of_mem {α : Type} (key : α → Nat) :
    ∀ {L : List α}, (L.map key).Nodup → ∀ {a : α}, a ∈ L →
      L.find? (fun x => key x == key a) = some a := by
  intro L
  induction L with
  | nil => intro _ a ha; exact absurd ha (List.not_mem_nil a)
  | cons x xs ih =>
      intro hN a ha
      rw [List.map_cons, List.nodup_cons] at hN
      rcases List.mem_cons.mp ha with h | h
      · subst h
        rw [List.find?_cons_of_pos]
        simp
      · have hne : key x ≠ key a := by
          intro he
          exact hN.1 (he ▸ List.mem_map_of_mem key h)
        rw [List.find?_cons_of_neg]
        · exact ih hN.2 h
        · simp [hne]

/-- Appending rows to a table does not change a lookup that already
succeeds. -/
theorem find?_append_some {α : Type} (p : α → Bool) (L ext : List α) (a : α)
    (h : L.find? p = some a) : (L ++ ext).find? p = some a := by
  rw [List.find?_append, h]
  rfl

/-- Congruence for `filterMap` under pointwise agreement on members. -/
theorem filterMap_congr_mem {α β : Type} (f g : α → Option β) :
    ∀ (l : List α), (∀ a ∈ l, f a = g a) → l.filterMap f = l.filterMap g := by
  intro l
  induction l with
  | nil => intro _; rfl
  | cons x xs ih =>
      intro h
      rw [List.filterMap_cons, List.filterMap_cons, h x (List.mem_cons_self x xs),
        ih (fun a ha => h a (List.mem_cons_of_mem x ha))]

/-- Mapping over a `filterMap` whose hits are related pointwise to a second
`filterMap` gives that second `filterMap`. -/
theorem map_filterMap_rel {α β γ : Type} (f : α → Option β) (g : α → Option γ)
    (h : β → γ) :
    ∀ (l : List α), (∀ a ∈ l, ∃ b, f a = some b ∧ g a = some (h b)) →
      (l.filterMap f).map h = l.filterMap g := by
  intro l
  induction l with
  | nil => intro _; rfl
  | cons x xs ih =>
      intro hp
      obtain ⟨b, hb, hg⟩ := hp x (List.mem_cons_self x xs)
      rw [List.filterMap_cons, List.filterMap_cons, hb, hg, List.map_cons,
        ih (fun a ha => hp a (List.mem_cons_of_mem x ha))]

/-- Under consistent identifiers, every stored observation resolves through
the primary-key joins. -/
theorem obsTriple_resolves (s : Store) (h : StoreIds s) (o : Observation)
    (ho : o ∈ s.observations) :
    ∃ l f, l ∈ s.listings ∧ f ∈ s.fields ∧
      s.listings.find? (fun x => x.id == o.listing_id) = some l ∧
      s.fields.find? (fun x => x.id == o.field_id) = some f ∧
      obsTriple s o = some (l.listing_id_text, f.canonical, o.filled) := by
  obtain ⟨hLN, hFN, -, -, hRefL, hRefF⟩ := h
  obtain ⟨l, hl, hid⟩ := hRefL o ho
  obtain ⟨f, hf, hfid⟩ := hRefF o ho
  have hfindL : s.listings.find? (fun x => x.id == o.listing_id) = some l := by
    rw [hid]
    exact find?_key_of_mem (fun x => x.id) hLN hl
  have hfindF : s.fields.find? (fun x => x.id == o.field_id) = some f := by
    rw [hfid]
    exact find?_key_of_mem (fun x => x.id) hFN hf
  refine ⟨l, f, hl, hf, hfindL, hfindF, ?_⟩
  unfold obsTriple
  rw [hfindL, hfindF]

/-- Resolution of an observation survives appending rows to the listing and
field tables. -/
theorem obsTriple_extend (t t' : Store) (extL : List Listing)
    (extF : List Field) (o : Observation) (l : Listing) (f : Field)
    (hL : t.listings.find? (fun x => x.id == o.listing_id) = some l)
    (hF : t.fields.find? (fun x => x.id == o.field_id) = some f)
    (hl : t'.listings = t.listings ++ extL)
    (hf : t'.fields = t.fields ++ extF) :
    obsTriple t' o = some (l.listing_id_text, f.canonical, o.filled) := by
  unfold obsTriple
  rw [hl, hf, find?_append_some _ _ _ _ hL, find?_append_some _ _ _ _ hF]

/-- Evaluation facts for the Python-style parses of the exported `filled`
cells. -/
theorem pyParse_filled_cells :
    pyInt? "1" = some 1 ∧ pyInt? "0" = some 0 ∧
    pyBool 1 = true ∧ pyBool 0 = false := by
  refine ⟨by decide, by decide, by decide, by decide⟩

/-- Behaviour of the import path's listing find-or-create: identifiers stay
consistent, the other tables are untouched, the listing table at most grows,
and the returned listing is a stored row carrying the requested text. -/
theorem getOrCreateListing_spec (s : Store) (batch text : String)
    (hIds : StoreIds s) :
    StoreIds (getOrCreateListing s batch text).2 ∧
    (getOrCreateListing s batch text).2.fields = s.fields ∧
    (getOrCreateListing s batch text).2.observations = s.observations ∧
    (getOrCreateListing s batch text).2.nextFieldId = s.nextFieldId ∧
    (getOrCreateListing s batch text).2.nextObsId = s.nextObsId ∧
    (∃ ext, (getOrCreateListing s batch text).2.listings = s.listings ++ ext) ∧
    (getOrCreateListing s batch text).1 ∈ (getOrCreateListing s batch text).2.listings ∧
    (getOrCreateListing s batch text).1.listing_id_text = text := by
  obtain ⟨hLN, hFN, hLlt, hFlt, hRefL, hRefF⟩ := hIds
  unfold getOrCreateListing
  cases hfind : s.listings.find?
      (fun l => l.listing_id_text == text && l.batch == batch) with
  | some l =>
      have hmem := List.mem_of_find?_eq_some hfind
      have hpred := List.find?_some hfind
      simp only [Bool.and_eq_true, beq_iff_eq] at hpred
      exact ⟨⟨hLN, hFN, hLlt, hFlt, hRefL, hRefF⟩, rfl, rfl, rfl, rfl,
        ⟨[], by simp⟩, hmem, hpred.1⟩
  | none =>
      constructor
      · refine ⟨?_, hFN, ?_, hFlt, ?_, hRefF⟩
        · rw [List.map_append]
          refine List.Nodup.append hLN (by simp) ?_
          intro a haL haNew
          simp only [List.map_cons, List.map_nil, List.mem_singleton] at haNew
          obtain ⟨l₀, hl₀, hkey⟩ := List.mem_map.mp haL
          have := hLlt l₀ hl₀
          omega
        · intro l hl
          rcases List.mem_append.mp hl with h | h
          · exact Nat.lt_trans (hLlt l h) (Nat.lt_succ_self _)
          · rw [List.mem_singleton] at h
            rw [h]
            exact Nat.lt_succ_self _
        · intro o ho
          obtain ⟨l, hl, heq⟩ := hRefL o ho
          exact ⟨l, List.mem_append_left _ hl, heq⟩
      · exact ⟨rfl, rfl, rfl, rfl, ⟨_, rfl⟩,
          List.mem_append_right _ (List.mem_singleton_self _), rfl⟩

/-- Behaviour of the field find-or-create used by the import path:
identifiers stay consistent, the other tables are untouched, the field
table at most grows, and the returned field carries the requested
canonical name. -/
theorem getOrCreateField_spec (s : Store) (name : String) (hIds : StoreIds s) :
    StoreIds (getOrCreateField s name).2 ∧
    (getOrCreateField s name).2.listings = s.listings ∧
    (getOrCreateField s name).2.observations = s.observations ∧
    (getOrCreateField s name).2.nextListingId = s.nextListingId ∧
    (getOrCreateField s name).2.nextObsId = s.nextObsId ∧
    (∃ ext, (getOrCreateField s name).2.fields = s.fields ++ ext) ∧
    (getOrCreateField s name).1 ∈ (getOrCreateField s name).2.fields ∧
    (getOrCreateField s name).1.canonical = name := by
  obtain ⟨hLN, hFN, hLlt, hFlt, hRefL, hRefF⟩ := hIds
  unfold getOrCreateField
  cases hfind : s.fields.find? (fun f => f.canonical == name) with
  | some f =>
      have hmem := List.mem_of_find?_eq_some hfind
      have hpred := List.find?_some hfind
      simp only [beq_iff_eq] at hpred
      exact ⟨⟨hLN, hFN, hLlt, hFlt, hRefL, hRefF⟩, rfl, rfl, rfl, rfl,
        ⟨[], by simp⟩, hmem, hpred⟩
  | none =>
      constructor
      · refine ⟨hLN, ?_, hLlt, ?_, hRefL, ?_⟩
        · rw [List.map_append]
          refine List.Nodup.append hFN (by simp) ?_
          intro a haF haNew
          simp only [List.map_cons, List.map_nil, List.mem_singleton] at haNew
          obtain ⟨f₀, hf₀, hkey⟩ := List.mem_map.mp haF
          have := hFlt f₀ hf₀
          omega
        · intro f hf
          rcases List.mem_append.mp hf with h | h
          · exact Nat.lt_trans (hFlt f h) (Nat.lt_succ_self _)
          · rw [List.mem_singleton] at h
            rw [h]
            exact Nat.lt_succ_self _
        · intro o ho
          obtain ⟨f, hf, heq⟩ := hRefF o ho
          exact ⟨f, List.mem_append_left _ hf, heq⟩
      · exact ⟨rfl, rfl, rfl, rfl, ⟨_, rfl⟩,
          List.mem_append_right _ (List.mem_singleton_self _), rfl⟩

/-- Importing one good row keeps identifiers consistent and appends exactly
its triple to the resolved triples of the store. -/
theorem importStep_spec (batch analyst : String) (s : Store)
    (text name : String) (b : Bool) (hIds : StoreIds s) :
    StoreIds (importStep batch analyst s text name b) ∧
    storeTriples (importStep batch analyst s text name b) =
      storeTriples s ++ [(text, name, b)] := by
  obtain ⟨hIds₁, hF₁, hO₁, hNF₁, hNO₁, ⟨extL, hextL⟩, hlmem, hltext⟩ :=
    getOrCreateListing_spec s batch text hIds
  obtain ⟨hIds₂, hL₂, hO₂, hNL₂, hNO₂, ⟨extF, hextF⟩, hfmem, hfname⟩ :=
    getOrCreateField_spec (getOrCreateListing s batch text).2 name hIds₁
  set s₁ := (getOrCreateListing s batch text).2 with hs₁
  set lst := (getOrCreateListing s batch text).1 with hlst
  set s₂ := (getOrCreateField s₁ name).2 with hs₂
  set fld := (getOrCreateField s₁ name).1 with hfld
  obtain ⟨LN₂, FN₂, Llt₂, Flt₂, RefL₂, RefF₂⟩ := hIds₂
  set ob : Observation :=
    { id := s₂.nextObsId, listing_id := lst.id, field_id := fld.id,
      filled := b, raw_text := name, analyst := analyst } with hob
  have hstep : importStep batch analyst s text name b =
      { s₂ with
        observations := s₂.observations ++ [ob],
        nextObsId := s₂.nextObsId + 1 } := rfl
  rw [hstep]
  set s₃ : Store :=
    { s₂ with
      observations := s₂.observations ++ [ob],
      nextObsId := s₂.nextObsId + 1 } with hs₃
  have h₃obs : s₃.observations = s₂.observations ++ [ob] := rfl
  have h₂obs : s₂.observations = s.observations := by rw [hO₂, hO₁]
  have h₃L : s₃.listings = s.listings ++ extL := by
    show s₂.listings = s.listings ++ extL
    rw [hL₂, hextL]
  have h₃F : s₃.fields = s.fields ++ extF := by
    show s₂.fields = s.fields ++ extF
    rw [hextF, hF₁]
  have hlst₂ : lst ∈ s₂.listings := by rw [hL₂]; exact hlmem
  constructor
  · refine ⟨LN₂, FN₂, Llt₂, Flt₂, ?_, ?_⟩
    · intro o ho
      rw [h₃obs] at ho
      rcases List.mem_append.mp ho with h | h
      · exact RefL₂ o h
      · rw [List.mem_singleton] at h
        subst h
        exact ⟨lst, hlst₂, rfl⟩
    · intro o ho
      rw [h₃obs] at ho
      rcases List.mem_append.mp ho with h | h
      · exact RefF₂ o h
      · rw [List.mem_singleton] at h
        subst h
        exact ⟨fld, hfmem, rfl⟩
  · show s₃.observations.filterMap (obsTriple s₃) =
      s.observations.filterMap (obsTriple s) ++ [(text, name, b)]
    rw [h₃obs, h₂obs, List.filterMap_append]
    congr 1
    · apply filterMap_congr_mem
      intro o ho
      obtain ⟨l, f, -, -, hL, hF, htr⟩ := obsTriple_resolves s hIds o ho
      exact (obsTriple_extend s s₃ extL extF o l f hL hF h₃L h₃F).trans htr.symm
    · have hfindL : s₃.listings.find? (fun x => x.id == ob.listing_id) = some lst :=
        find?_key_of_mem (fun x => x.id) LN₂ hlst₂
      have hfindF : s₃.fields.find? (fun x => x.id == ob.field_id) = some fld :=
        find?_key_of_mem (fun x => x.id) FN₂ hfmem
      have hcell : obsTriple s₃ ob = some (text, name, b) := by
        unfold obsTriple
        rw [hfindL, hfindF]
        show some (lst.listing_id_text, fld.canonical, ob.filled) =
          some (text, name, b)
        rw [hltext, hfname]
      rw [List.filterMap_cons, hcell]
      rfl

/-- Importing a list of good rows succeeds and appends exactly their
triples to the store's resolved triples, in order. -/
theorem import_obs_ok (batch analyst : String) :
    ∀ (rows : List CsvRow) (t : Store), StoreIds t → (∀ r ∈ rows, goodRow r) →
      ∃ t', import_obs batch analyst t rows = .ok t' ∧
        storeTriples t' = storeTriples t ++ rows.map rowTriple := by
  intro rows
  induction rows with
  | nil => intro t _ _; exact ⟨t, rfl, by simp⟩
  | cons r rest ih =>
      intro t ht hg
      obtain ⟨h1, h2, h3⟩ := hg r (List.mem_cons_self r rest)
      obtain ⟨i, hi⟩ := Option.isSome_iff_exists.mp h3
      obtain ⟨hIds', htr⟩ := importStep_spec batch analyst t (pyStrip r.listing_id)
        (pyStrip r.field) (pyBool i) ht
      obtain ⟨t', hok, htr'⟩ := ih
        (importStep batch analyst t (pyStrip r.listing_id) (pyStrip r.field) (pyBool i))
        hIds' (fun a ha => hg a (List.mem_cons_of_mem r ha))
      refine ⟨t', ?_, ?_⟩
      · show import_obs batch analyst t (r :: rest) = .ok t'
        unfold import_obs
        rw [hi]
        show (if pyStrip r.listing_id = "" ∨ pyStrip r.field = "" then
            import_obs batch analyst t rest
          else import_obs batch analyst
            (importStep batch analyst t (pyStrip r.listing_id) (pyStrip r.field)
              (pyBool i)) rest) = .ok t'
        rw [if_neg (by simp [h1, h2])]
        exact hok
      · have hrt : rowTriple r =
            (pyStrip r.listing_id, pyStrip r.field, pyBool i) := by
          unfold rowTriple
          rw [hi]
          rfl
        rw [htr', htr, List.map_cons, hrt, List.append_assoc]
        rfl

/-- Under full well-formedness, exporting an observation yields a CSV row
the import path accepts, and that row denotes exactly the observation's
resolved triple. -/
theorem exportRow_spec (s : Store) (hWF : StoreWF s) (o : Observation)
    (ho : o ∈ s.observations) :
    ∃ r, exportRow s o = some r ∧ obsTriple s o = some (rowTriple r) ∧
      goodRow r := by
  obtain ⟨hIds, hLT, hFT⟩ := hWF
  obtain ⟨l, f, hl, hf, hfindL, hfindF, htr⟩ := obsTriple_resolves s hIds o ho
  obtain ⟨hts, htn⟩ := hLT l hl
  obtain ⟨hcs, hcn⟩ := hFT f hf
  refine ⟨{ listing_id := l.listing_id_text, field := f.canonical,
            filled := if o.filled then "1" else "0", analyst := o.analyst },
    ?_, ?_, ?_, ?_, ?_⟩
  · unfold exportRow
    rw [hfindL, hfindF]
  · rw [htr]
    unfold rowTriple
    show some (l.listing_id_text, f.canonical, o.filled) =
      some (pyStrip l.listing_id_text, pyStrip f.canonical,
        pyBool ((pyInt? (if o.filled then "1" else "0")).getD 0))
    rw [hts, hcs]
    cases hfl : o.filled
    · rfl
    · rfl
  · show pyStrip l.listing_id_text ≠ ""
    rw [hts]
    exact htn
  · show pyStrip f.canonical ≠ ""
    rw [hcs]
    exact hcn
  · show (pyInt? (if o.filled then "1" else "0")).isSome
    cases hfl : o.filled
    · rfl
    · rfl

/-- The exported CSV denotes exactly the store's resolved triples, and
every exported row is accepted by the import path. -/
theorem export_observations_spec (s : Store) (hWF : StoreWF s) :
    (export_observations s).map rowTriple = storeTriples s ∧
    ∀ r ∈ export_observations s, goodRow r := by
  constructor
  · unfold export_observations storeTriples
    apply map_filterMap_rel
    intro o ho
    obtain ⟨r, hr, htr, -⟩ := exportRow_spec s hWF o ho
    exact ⟨r, hr, htr⟩
  · intro r hr
    obtain ⟨o, ho, hro⟩ := List.mem_filterMap.mp hr
    obtain ⟨r', hr', -, hgood⟩ := exportRow_spec s hWF o ho
    obtain rfl : r' = r := Option.some.inj (hr'.symm.trans hro)
    exact hgood

/-- Claim C4: exporting all observations of a well-formed store to CSV
and then importing that CSV into an empty store reproduces exactly the
same (listing text, field canonical, filled) triples. -/
theorem csv_round_trip (s : Store) (batch analyst : String) (hWF : StoreWF s) :
    ∃ s', import_obs batch analyst emptyStore (export_observations s) = .ok s' ∧
      storeTriples s' = storeTriples s := by
  obtain ⟨hmap, hgood⟩ := export_observations_spec s hWF
  have hids : StoreIds emptyStore := by
    refine ⟨List.nodup_nil, List.nodup_nil, ?_, ?_, ?_, ?_⟩ <;>
      (intro x hx; exact absurd hx (List.not_mem_nil x))
  obtain ⟨t', hok, htr⟩ := import_obs_ok batch analyst (export_observations s)
    emptyStore hids hgood
  refine ⟨t', hok, ?_⟩
  rw [htr, hmap]
  exact List.nil_append (storeTriples s)

/-- Witness for C4 on `demoSum`, which spans two batches. -/
theorem csv_round_trip_witness :
    StoreWF demoSum ∧
    ∃ s', import_obs "default" "import_user" emptyStore
        (export_observations demoSum) = .ok s' ∧
      storeTriples s' = storeTriples demoSum :=
  ⟨by unfold StoreWF StoreIds; decide,
   csv_round_trip demoSum "default" "import_user"
     (by unfold StoreWF StoreIds; decide)⟩

/-- Claim C10: a CSV row whose `filled` cell is not a decimal integer
literal (such as `yes` or the empty cell) makes the import crash with an
uncaught conversion error rather than return a structured validation
response — even on a row whose blank listing id would otherwise make the
loop skip it silently, as the third conjunct shows for good rows. -/
theorem import_bad_filled_crashes :
    import_obs "default" "import_user" emptyStore
        [{ listing_id := "L1", field := "Garage", filled := "yes", analyst := "x" }] =
      .error "invalid literal for int() with base 10" ∧
    import_obs "default" "import_user" emptyStore
        [{ listing_id := " ", field := "Garage", filled := "", analyst := "x" }] =
      .error "invalid literal for int() with base 10" ∧
    import_obs "default" "import_user" emptyStore
        [{ listing_id := " ", field := "Garage", filled := "0", analyst := "x" },
         { listing_id := "L1", field := " ", filled := "1", analyst := "x" }] =
      .ok emptyStore := by
  refine ⟨rfl, rfl, rfl⟩

/-- Claim C5: resolving a non-blank name through the Field Registry twice
yields the same Field id; the second resolution finds the Field the first
one returned (possibly created) and changes nothing. -/
theorem find_or_create_field_idempotent (s : Store) (name : String)
    (h : pyStrip name ≠ "") :
    ∃ f₁ : Field,
      (find_or_create_field s name).1 = some f₁ ∧
      (find_or_create_field (find_or_create_field s name).2 name).1 = some f₁ ∧
      (find_or_create_field (find_or_create_field s name).2 name).2 =
        (find_or_create_field s name).2 := by
  unfold find_or_create_field getOrCreateField
  simp only [if_neg h]
  cases hfind : s.fields.find? (fun f => f.canonical == pyStrip name) with
  | some f =>
      refine ⟨f, by simp [hfind], ?_, ?_⟩ <;> simp [if_neg h, hfind]
  | none =>
      refine ⟨{ id := s.nextFieldId, canonical := pyStrip name }, by simp [hfind], ?_, ?_⟩ <;>
        simp [if_neg h, hfind, List.find?_append]

/-- Witness for C5 at a concrete store and name. -/
theorem find_or_create_field_idempotent_witness :
    pyStrip " Garage Type " ≠ "" ∧
    ∃ f₁ : Field,
      (find_or_create_field emptyStore " Garage Type ").1 = some f₁ ∧
      (find_or_create_field (find_or_create_field emptyStore " Garage Type ").2
          " Garage Type ").1 = some f₁ ∧
      (find_or_create_field (find_or_create_field emptyStore " Garage Type ").2
          " Garage Type ").2 =
        (find_or_create_field emptyStore " Garage Type ").2 :=
  ⟨by decide, find_or_create_field_idempotent emptyStore " Garage Type " (by decide)⟩

end MLS
